import Mathlib

/-!
Shallow embedding of the task-management-api repository
(github.com/kcansari/task-management-api) for checking its
natural-language specification.

The embedding covers:
* the task data model (src/models/task.go),
* the task CRUD handlers and the pagination algorithm (src/handlers/task.go),
* the JWT token service (utils jwt file, src/unnamed/part_000),
* the authentication middleware (src/middleware/auth.go),
* the registration handler's duplicate-email path (src/handlers/auth.go).

Machine integers are modelled as Nat/Int; timestamps as Nat seconds.
Database access (GORM) is modelled as explicit state passing over a list
of rows, with GORM's soft-delete convention (queries silently add
"deleted_at IS NULL") made explicit in the lookup predicates.
The HMAC-SHA256 signature of the JWT library is idealised: a signed token
carries the secret it was signed with, and signature verification succeeds
exactly when that secret equals the verification secret.
-/

namespace TaskAPI

/-- Unix time in seconds. -/
abbrev Time := Nat

abbrev UserID := Nat
abbrev TaskID := Nat

/-- src/models/task.go: the Task row. `status` is a Go string type
(`type TaskStatus string`); `deletedAt` is GORM's nullable soft-delete
timestamp (`gorm.DeletedAt`). The `User` association field is elided
(never populated by the handlers under study). -/
structure Task where
  id : TaskID
  title : String
  description : String
  status : String
  userID : UserID
  createdAt : Time
  updatedAt : Time
  deletedAt : Option Time
deriving DecidableEq, Repr

/-- The tasks table, as a list of rows. -/
abbrev DB := List Task

/-- GORM default scope: a row is visible to queries iff deleted_at IS NULL. -/
def Task.visible (t : Task) : Bool := t.deletedAt.isNone

/-- src/handlers/task.go (GetTask/UpdateTask/DeleteTask):
`db.Where("id = ? AND user_id = ?", taskID, user.UserID).First(&task)`.
GORM adds the soft-delete filter; `First` returns the first match or an
error when none exists. -/
def findTask (db : DB) (uid : UserID) (tid : TaskID) : Option Task :=
  db.find? fun t => t.id == tid && t.userID == uid && t.visible

/-- src/handlers/task.go: TaskResponse, the serialized task shape (note:
no deleted_at field). Timestamps kept numeric rather than formatted. -/
structure TaskResponse where
  id : TaskID
  title : String
  description : String
  status : String
  userID : UserID
  createdAt : Time
  updatedAt : Time
deriving DecidableEq, Repr

def toTaskResponse (t : Task) : TaskResponse :=
  { id := t.id, title := t.title, description := t.description,
    status := t.status, userID := t.userID,
    createdAt := t.createdAt, updatedAt := t.updatedAt }

/-- src/handlers/task.go GetTask: 404 "Task not found" when the
ownership-filtered lookup fails, else 200 with the task. Errors are
`(status, message)` pairs. -/
def getTask (db : DB) (uid : UserID) (tid : TaskID) :
    Except (Nat × String) TaskResponse :=
  match findTask db uid tid with
  | none => .error (404, "Task not found")
  | some t => .ok (toTaskResponse t)

/-- src/handlers/task.go: UpdateTaskRequest; pointer fields distinguish
"not provided" (none) from an explicit value. -/
structure UpdateTaskRequest where
  title : Option String
  description : Option String
  status : Option String
deriving DecidableEq, Repr

/-- Go `strings.TrimSpace`: strip leading and trailing whitespace. -/
def trimSpace (s : String) : String :=
  String.mk
    (((s.data.dropWhile Char.isWhitespace).reverse.dropWhile
        Char.isWhitespace).reverse)

/-- The status validation loop of CreateTask/UpdateTask: membership in
{pending, in_progress, completed}. -/
def validStatus (s : String) : Bool :=
  s == "pending" || s == "in_progress" || s == "completed"

/-- GORM `db.Save(&task)`: writes the row back by primary key and
refreshes the updated_at timestamp. -/
def saveTask (db : DB) (t : Task) (now : Time) : Task × DB :=
  let t' := { t with updatedAt := now }
  (t', db.map fun u => if u.id == t.id then t' else u)

/-- UpdateTask, status step (mirrors the code's order: runs after the
title and description steps): a present status is validated against the
enum, then assigned; then the task is saved. -/
def applyStatus (db : DB) (task : Task) (status? : Option String)
    (now : Time) : Except (Nat × String) Task × DB :=
  match status? with
  | none =>
      let r := saveTask db task now
      (.ok r.1, r.2)
  | some st =>
      if validStatus st then
        let r := saveTask db { task with status := st } now
        (.ok r.1, r.2)
      else
        (.error (400, "Invalid status. Use: pending, in_progress, or completed"), db)

/-- UpdateTask, description step: a present description replaces
unconditionally (empty allowed). -/
def applyDescription (db : DB) (task : Task) (req : UpdateTaskRequest)
    (now : Time) : Except (Nat × String) Task × DB :=
  match req.description with
  | none => applyStatus db task req.status now
  | some d => applyStatus db { task with description := d } req.status now

/-- src/handlers/task.go UpdateTask (after ID parsing and JSON decoding):
ownership-filtered lookup (404 on failure), then field-by-field partial
update in source order — title (rejected 400 if empty after trim),
description, status (rejected 400 if not in the enum) — then save. -/
def updateTask (db : DB) (uid : UserID) (tid : TaskID)
    (req : UpdateTaskRequest) (now : Time) :
    Except (Nat × String) Task × DB :=
  match findTask db uid tid with
  | none => (.error (404, "Task not found"), db)
  | some task =>
      match req.title with
      | none => applyDescription db task req now
      | some newTitle =>
          if trimSpace newTitle == "" then
            (.error (400, "Title cannot be empty"), db)
          else
            applyDescription db { task with title := newTitle } req now

/-- src/handlers/task.go DeleteTask (after ID parsing):
ownership-filtered lookup (404 on failure), then GORM soft delete
(`db.Delete(&task)` sets deleted_at; the row is not erased). Success is
204 No Content, modelled as `.ok ()`. -/
def deleteTask (db : DB) (uid : UserID) (tid : TaskID) (now : Time) :
    Except (Nat × String) Unit × DB :=
  match findTask db uid tid with
  | none => (.error (404, "Task not found"), db)
  | some task =>
      (.ok (), db.map fun u =>
        if u.id == task.id then { task with deletedAt := some now } else u)

/-- Value of a nonempty all-digit character list, else none. -/
def digitsVal (cs : List Char) : Option Nat :=
  if cs.isEmpty then none
  else
    cs.foldl
      (fun acc c =>
        match acc with
        | none => none
        | some n => if c.isDigit then some (n * 10 + (c.toNat - 48)) else none)
      (some 0)

/-- Model of Go `strconv.Atoi`: optional sign, then one or more decimal
digits, nothing else; values outside the 64-bit int range are an error. -/
def atoi (s : String) : Option Int :=
  let signed : Option Int :=
    match s.data with
    | [] => none
    | '+' :: rest => (digitsVal rest).map fun n => (n : Int)
    | '-' :: rest => (digitsVal rest).map fun n => -(n : Int)
    | cs => (digitsVal cs).map fun n => (n : Int)
  match signed with
  | none => none
  | some v =>
      if v < -(2 ^ 63) ∨ 2 ^ 63 - 1 < v then none else some v

/-- src/handlers/task.go GetTasks, page parameter: default 1; replaced by
the query value only when it parses as an integer and is positive.
The query string value is "" when the parameter is absent (Go
`query.Get`). -/
def effectivePage (pageStr : String) : Int :=
  if pageStr == "" then 1
  else
    match atoi pageStr with
    | some p => if p > 0 then p else 1
    | none => 1

/-- src/handlers/task.go GetTasks, page_size parameter: default 10;
replaced by the query value only when it parses as an integer and is
positive, then silently clamped to the maxPageSize of 100. -/
def effectivePageSize (pageSizeStr : String) : Int :=
  if pageSizeStr == "" then 10
  else
    match atoi pageSizeStr with
    | some ps => if ps > 0 then (if ps > 100 then 100 else ps) else 10
    | none => 10

/-- The caller's visible tasks:
`Where("user_id = ?", uid)` plus GORM's implicit soft-delete filter. -/
def ownedVisible (db : DB) (uid : UserID) : List Task :=
  db.filter fun t => t.userID == uid && t.visible

/-- `Order("created_at DESC")`: the visible owned rows sorted by creation
time, newest first (the database returns one fixed total order; a stable
sort models it). -/
def orderedTasks (db : DB) (uid : UserID) : List Task :=
  List.insertionSort (fun a b => b.createdAt ≤ a.createdAt)
    (ownedVisible db uid)

/-- `Limit(pageSize).Offset(offset)` applied to the ordered rows, with
offset = (page − 1) × pageSize. -/
def pageItems (db : DB) (uid : UserID) (page pageSize : Int) : List Task :=
  (((orderedTasks db uid).drop ((page - 1) * pageSize).toNat).take pageSize.toNat)

/-- src/handlers/task.go: PaginatedTaskResponse. -/
structure PaginatedTaskResponse where
  tasks : List TaskResponse
  page : Int
  pageSize : Int
  total : Nat
  totalPages : Nat
  hasNext : Bool
  hasPrev : Bool
deriving DecidableEq, Repr

/-- src/handlers/task.go GetTasks (after method/auth checks): parse and
normalize page/page_size, count the caller's visible tasks, fetch the
requested slice ordered newest-first, and derive the pagination
metadata: totalPages = (total + pageSize − 1) / pageSize (integer
division), hasNext = page < totalPages, hasPrev = page > 1. -/
def getTasks (db : DB) (uid : UserID) (pageStr pageSizeStr : String) :
    PaginatedTaskResponse :=
  let page := effectivePage pageStr
  let pageSize := effectivePageSize pageSizeStr
  let total := (ownedVisible db uid).length
  let items := pageItems db uid page pageSize
  let totalPages := (total + pageSize.toNat - 1) / pageSize.toNat
  { tasks := items.map toTaskResponse
    page := page
    pageSize := pageSize
    total := total
    totalPages := totalPages
    hasNext := page < (totalPages : Int)
    hasPrev := page > 1 }

/-- JWT header algorithms relevant to the library's dispatch. The
golang-jwt keyfunc in ValidateToken accepts any `SigningMethodHMAC`
(HS256/HS384/HS512) and rejects everything else. -/
inductive Alg where
  | HS256
  | HS384
  | HS512
  | RS256
  | ES256
  | algNone
deriving DecidableEq, Repr

def Alg.isHMAC : Alg → Bool
  | .HS256 | .HS384 | .HS512 => true
  | _ => false

/-- utils jwt file: the Claims payload — custom user_id and email plus
the registered fields the code sets (exp, iat, iss). -/
structure Claims where
  userID : UserID
  email : String
  expiresAt : Time
  issuedAt : Time
  issuer : String
deriving DecidableEq, Repr

/-- A JWT token string, idealised. A structurally well-formed signed
token is its header algorithm, its claims, and the secret that produced
its HMAC signature (signature verification succeeds exactly when this
secret equals the verification secret — the idealisation of an
unforgeable MAC). Every other string, the empty string included, is
`malformed`. -/
inductive TokenString where
  | malformed (raw : String)
  | signed (alg : Alg) (claims : Claims) (secret : String)
deriving DecidableEq, Repr

/-- utils jwt file, GenerateToken: HS256 token whose claims carry the
user id and email, exp = now + 24h, iat = now, iss =
"task-management-api", signed with the given secret. (The signing error
branch of the library is unreachable for HMAC with a byte-slice key.) -/
def generateToken (userID : UserID) (email secret : String) (now : Time) :
    TokenString :=
  .signed .HS256
    { userID := userID, email := email,
      expiresAt := now + 24 * 3600, issuedAt := now,
      issuer := "task-management-api" }
    secret

/-- utils jwt file, ValidateToken: parse (malformed input fails), check
the header algorithm is HMAC, verify the signature against the secret,
check expiry (golang-jwt v5: valid iff now is strictly before exp, no
leeway configured). All failures collapse to `none`; the Go code wraps
them in distinct internal error strings but callers only branch on
err != nil. -/
def validateToken (tok : TokenString) (secret : String) (now : Time) :
    Option Claims :=
  match tok with
  | .malformed _ => none
  | .signed alg claims sigSecret =>
      if !alg.isHMAC then none
      else if sigSecret != secret then none
      else if claims.expiresAt ≤ now then none
      else some claims

/-- src/middleware/auth.go: the identity bound into the request context
on successful authentication. -/
structure UserContext where
  userID : UserID
  email : String
deriving DecidableEq, Repr

/-- Outcome of the middleware's gate: a 401 rejection with a message, or
permission to run the wrapped handler with the bound identity. -/
inductive AuthResult where
  | reject (status : Nat) (msg : String)
  | proceed (ctx : UserContext)
deriving DecidableEq, Repr

/-- Go `strings.SplitN(s, " ", 2)`: split at the first space character
only; a string with no space yields a single-element list. -/
def breakAtSpace : List Char → Option (List Char × List Char)
  | [] => none
  | c :: cs =>
      if c = ' ' then some ([], cs)
      else (breakAtSpace cs).map fun p => (c :: p.1, p.2)

def splitN2 (s : String) : List String :=
  match breakAtSpace s.data with
  | none => [s]
  | some (a, b) => [String.mk a, String.mk b]

/-- src/middleware/auth.go AuthMiddleware, the gate itself. The
Authorization header value is "" when the header is absent (Go
`r.Header.Get`). `validate` abstracts
`utils.ValidateToken(token, cfg.JWTSecret)` applied to the credential
substring. -/
def authMiddleware (validate : String → Option Claims)
    (authHeader : String) : AuthResult :=
  if authHeader == "" then
    .reject 401 "Authorization header required"
  else
    match splitN2 authHeader with
    | [scheme, token] =>
        if scheme != "Bearer" then
          .reject 401 "Invalid authorization scheme. Use Bearer"
        else
          match validate token with
          | none => .reject 401 "Invalid or expired token"
          | some claims =>
              .proceed { userID := claims.userID, email := claims.email }
    | _ => .reject 401 "Invalid authorization header format"

/-- The decorator as a whole: run the gate, and only on `proceed` invoke
the wrapped handler on the bound identity; a rejection is returned as-is
and the handler is never called. -/
def withAuth {R : Type} (validate : String → Option Claims)
    (authHeader : String) (onReject : Nat → String → R)
    (handler : UserContext → R) : R :=
  match authMiddleware validate authHeader with
  | .reject s m => onReject s m
  | .proceed ctx => handler ctx

/-- Model of the User row (the models user file is not present under
src/; fields per the spec's data model and the handlers' uses). -/
structure User where
  id : UserID
  email : String
  password : String
deriving DecidableEq, Repr

abbrev UserDB := List User

/-- Outcome of `db.Create(&user)` at insert time, as seen by the
handler: success with the generated id, a storage-level uniqueness
violation on email (possible under a concurrent registration that
passed the pre-check), or any other storage error. -/
inductive InsertOutcome where
  | ok (assignedID : UserID)
  | uniqueViolation
  | otherError
deriving DecidableEq, Repr

inductive RegisterResult where
  | created (token : TokenString) (user : User)
  | failure (status : Nat) (msg : String)
deriving DecidableEq, Repr

def RegisterResult.status : RegisterResult → Nat
  | .created _ _ => 201
  | .failure s _ => s

/-- src/handlers/auth.go Register (after method/JSON checks): validate
presence of email and password, read-then-write duplicate pre-check
(409 when a user with the email already exists), hash, insert — any
insert error whatsoever is answered 500 "Failed to create user" — then
issue a token and answer 201. `hash` abstracts utils.HashPassword;
`insert` is the storage layer's outcome for this request's insert. -/
def register (users : UserDB) (email password : String)
    (hash : String → Option String) (insert : InsertOutcome)
    (secret : String) (now : Time) : RegisterResult :=
  if trimSpace email == "" then .failure 400 "Email is required"
  else if trimSpace password == "" then .failure 400 "Password is required"
  else if users.any (fun u => u.email == email) then
    .failure 409 "User with this email already exists"
  else
    match hash password with
    | none => .failure 500 "Failed to process password"
    | some _ =>
        match insert with
        | .ok newID =>
            -- the handler clears user.Password before serializing
            .created (generateToken newID email secret now)
              { id := newID, email := email, password := "" }
        | _ => .failure 500 "Failed to create user"

/-! ### Helper lemmas -/

/-- The ownership-filtered lookup fails exactly when no non-deleted task
with the given id owned by the given user is in the table. -/
lemma findTask_eq_none_iff (db : DB) (uid : UserID) (tid : TaskID) :
    findTask db uid tid = none ↔
      ∀ t ∈ db, ¬(t.id = tid ∧ t.userID = uid ∧ t.deletedAt = none) := by
  simp [findTask, List.find?_eq_none, Task.visible, Option.isNone_iff_eq_none]

lemma findTask_some (db : DB) (uid : UserID) (tid : TaskID) (t : Task)
    (h : findTask db uid tid = some t) :
    t ∈ db ∧ t.id = tid ∧ t.userID = uid ∧ t.deletedAt = none := by
  have hmem := List.mem_of_find?_eq_some h
  have hp := List.find?_some h
  simp [Task.visible, Option.isNone_iff_eq_none] at hp
  exact ⟨hmem, hp.1.1, hp.1.2, hp.2⟩

/-! ### Claim C3: token round-trip -/

/-- Claim C3: validating a token freshly issued for (userID, email) with
the same secret succeeds and yields claims with that userID and email,
expiry = issuance time + 24 hours, and issuer = "task-management-api". -/
theorem token_roundtrip (uid : UserID) (email secret : String) (now : Time) :
    validateToken (generateToken uid email secret now) secret now =
      some { userID := uid, email := email,
             expiresAt := now + 24 * 3600, issuedAt := now,
             issuer := "task-management-api" } := by
  simp [validateToken, generateToken, Alg.isHMAC]

/-! ### Claim C4: token validation failure cases -/

/-- Claim C4: validation fails (uniformly, with no sub-case visible in
the returned value) on the empty string, on any malformed token, on any
signature that does not verify under the given secret (in particular any
token issued under a different secret), on any token whose header
declares a non-HMAC algorithm, and on any token whose expiry is not in
the future. -/
theorem token_validation_failures :
    (∀ secret now, validateToken (.malformed "") secret now = none) ∧
    (∀ raw secret now, validateToken (.malformed raw) secret now = none) ∧
    (∀ alg claims sigSecret verifySecret now, verifySecret ≠ sigSecret →
        validateToken (.signed alg claims sigSecret) verifySecret now = none) ∧
    (∀ uid email secretA secretB tIssue tCheck, secretB ≠ secretA →
        validateToken (generateToken uid email secretA tIssue) secretB tCheck
          = none) ∧
    (∀ alg claims sigSecret now, alg.isHMAC = false →
        validateToken (.signed alg claims sigSecret) sigSecret now = none) ∧
    (∀ alg claims sigSecret now, claims.expiresAt ≤ now →
        validateToken (.signed alg claims sigSecret) sigSecret now = none) := by
  refine ⟨fun _ _ => rfl, fun _ _ _ => rfl, ?_, ?_, ?_, ?_⟩
  · intro alg claims sigSecret verifySecret now h
    unfold validateToken
    rcases hm : alg.isHMAC with _ | _
    · simp [hm]
    · simp [hm, bne_iff_ne, Ne.symm h]
  · intro uid email secretA secretB tIssue tCheck h
    simp [generateToken, validateToken, Alg.isHMAC, bne_iff_ne, Ne.symm h]
  · intro alg claims sigSecret now h
    simp [validateToken, h]
  · intro alg claims sigSecret now h
    unfold validateToken
    rcases hm : alg.isHMAC with _ | _
    · simp [hm]
    · simp [hm, h]

/-- Witness for C4 at concrete inputs. -/
theorem token_validation_failures_witness :
    validateToken (.malformed "") "s" 0 = none ∧
    validateToken (.malformed "not-a-token") "s" 5 = none ∧
    validateToken
      (.signed .HS256
        { userID := 1, email := "a@b.c", expiresAt := 100, issuedAt := 0,
          issuer := "task-management-api" } "secretA") "secretB" 0 = none ∧
    validateToken (generateToken 1 "a@b.c" "secretA" 0) "secretB" 0 = none ∧
    validateToken
      (.signed .RS256
        { userID := 1, email := "a@b.c", expiresAt := 100, issuedAt := 0,
          issuer := "task-management-api" } "s") "s" 0 = none ∧
    validateToken
      (.signed .HS256
        { userID := 1, email := "a@b.c", expiresAt := 100, issuedAt := 0,
          issuer := "task-management-api" } "s") "s" 100 = none :=
  ⟨token_validation_failures.1 "s" 0,
   token_validation_failures.2.1 "not-a-token" "s" 5,
   token_validation_failures.2.2.1 _ _ _ _ _ (by decide),
   token_validation_failures.2.2.2.1 1 "a@b.c" _ _ 0 0 (by decide),
   token_validation_failures.2.2.2.2.1 _ _ _ _ (by decide),
   token_validation_failures.2.2.2.2.2 _ _ _ _ (by decide)⟩

/-! ### Claim C2: the Auth Gate rejection ladder -/

lemma breakAtSpace_eq_none (cs : List Char) (h : ' ' ∉ cs) :
    breakAtSpace cs = none := by
  induction cs with
  | nil => rfl
  | cons c cs ih =>
      simp only [List.mem_cons, not_or] at h
      simp [breakAtSpace, Ne.symm h.1, ih h.2]

lemma splitN2_of_no_space (s : String) (h : ' ' ∉ s.data) :
    splitN2 s = [s] := by
  simp [splitN2, breakAtSpace_eq_none s.data h]

/-- Counterexample to C2 as stated: the header "Bearer a b" consists of
three whitespace-separated tokens, so the claim requires a 401 with
"Invalid authorization header format"; the code instead splits only at
the first space, accepts the scheme "Bearer", treats "a b" as the
credential, and rejects with "Invalid or expired token" when that
credential fails validation (a string containing a space is never a
valid JWT). -/
theorem authGate_format_counterexample :
    ("Bearer a b".data.filter (· = ' ')).length = 2 ∧
    authMiddleware (fun _ => none) "Bearer a b" =
      .reject 401 "Invalid or expired token" ∧
    ("Invalid or expired token" : String) ≠
      "Invalid authorization header format" := by
  refine ⟨by decide, by decide, by decide⟩

/-- Claim C2 (amended): the header is split at the FIRST space only. A
missing (empty) header is rejected 401 "Authorization header required";
a nonempty header containing no space is rejected 401 "Invalid
authorization header format"; otherwise the part before the first space
is the scheme and everything after it the credential: a scheme other
than the literal "Bearer" is rejected 401 "Invalid authorization scheme.
Use Bearer"; a credential failing token validation is rejected 401
"Invalid or expired token"; and on every rejection the wrapped handler
never executes. -/
theorem authGate_ladder (validate : String → Option Claims) :
    (authMiddleware validate "" = .reject 401 "Authorization header required") ∧
    (∀ h : String, h ≠ "" → ' ' ∉ h.data →
        authMiddleware validate h =
          .reject 401 "Invalid authorization header format") ∧
    (∀ (h : String) (scheme cred : String), h ≠ "" →
        splitN2 h = [scheme, cred] → scheme ≠ "Bearer" →
        authMiddleware validate h =
          .reject 401 "Invalid authorization scheme. Use Bearer") ∧
    (∀ (h : String) (cred : String), h ≠ "" →
        splitN2 h = ["Bearer", cred] → validate cred = none →
        authMiddleware validate h = .reject 401 "Invalid or expired token") ∧
    (∀ (R : Type) (h : String) (onReject : Nat → String → R)
        (handler : UserContext → R) (s : Nat) (m : String),
        authMiddleware validate h = .reject s m →
        withAuth validate h onReject handler = onReject s m) := by
  refine ⟨rfl, ?_, ?_, ?_, ?_⟩
  · intro h hne hsp
    simp [authMiddleware, hne, splitN2_of_no_space h hsp]
  · intro h scheme cred hne hsplit hscheme
    simp [authMiddleware, hne, hsplit, hscheme]
  · intro h cred hne hsplit hval
    simp [authMiddleware, hne, hsplit, hval]
  · intro R h onReject handler s m hrej
    simp [withAuth, hrej]

/-- Witness for the amended C2 at concrete inputs, one per rung. -/
theorem authGate_ladder_witness :
    (authMiddleware (fun _ => none) "" =
      .reject 401 "Authorization header required") ∧
    (authMiddleware (fun _ => none) "Bearer" =
      .reject 401 "Invalid authorization header format") ∧
    (authMiddleware (fun _ => none) "Basic dXNlcjpwdw==" =
      .reject 401 "Invalid authorization scheme. Use Bearer") ∧
    (authMiddleware (fun _ => none) "Bearer deadbeef" =
      .reject 401 "Invalid or expired token") ∧
    (withAuth (fun _ => none) "" (fun s _ => s) (fun _ => 7) = 401) :=
  ⟨(authGate_ladder (fun _ => none)).1,
   (authGate_ladder (fun _ => none)).2.1 "Bearer" (by decide) (by decide),
   (authGate_ladder (fun _ => none)).2.2.1 "Basic dXNlcjpwdw=="
     "Basic" "dXNlcjpwdw==" (by decide) (by decide) (by decide),
   (authGate_ladder (fun _ => none)).2.2.2.1 "Bearer deadbeef" "deadbeef"
     (by decide) (by decide) rfl,
   (authGate_ladder (fun _ => none)).2.2.2.2 Nat "" (fun s _ => s)
     (fun _ => 7) 401 "Authorization header required" rfl⟩

/-! ### Claim C1: ownership isolation with NotFound collapsing -/

/-- Claim C1: when no non-deleted task with id `tid` owned by the caller
`uid` exists — in particular when a task with that id exists but belongs
to another user — getTask, updateTask and deleteTask all answer 404
"Task not found", and the two mutating operations leave the table
unchanged. Foreign ownership and nonexistence produce the identical
response, since the ownership filter is part of the lookup itself. -/
theorem ownership_isolation (db : DB) (uid : UserID) (tid : TaskID)
    (req : UpdateTaskRequest) (now now' : Time)
    (h : ∀ t ∈ db, ¬(t.id = tid ∧ t.userID = uid ∧ t.deletedAt = none)) :
    getTask db uid tid = .error (404, "Task not found") ∧
    updateTask db uid tid req now = (.error (404, "Task not found"), db) ∧
    deleteTask db uid tid now' = (.error (404, "Task not found"), db) := by
  have hnone : findTask db uid tid = none := (findTask_eq_none_iff db uid tid).2 h
  exact ⟨by simp [getTask, hnone], by simp [updateTask, hnone],
    by simp [deleteTask, hnone]⟩

/-- A concrete task owned by user 1, used by the concrete witnesses. -/
def sampleTask : Task :=
  { id := 1, title := "Complete project setup",
    description := "Set up the basic project structure",
    status := "pending", userID := 1,
    createdAt := 10, updatedAt := 10, deletedAt := none }

/-- Witness for C1: user 2 probing user 1's task. -/
theorem ownership_isolation_witness :
    getTask [sampleTask] 2 1 = .error (404, "Task not found") ∧
    updateTask [sampleTask] 2 1
        { title := none, description := none, status := some "completed" } 5 =
      (.error (404, "Task not found"), [sampleTask]) ∧
    deleteTask [sampleTask] 2 1 6 =
      (.error (404, "Task not found"), [sampleTask]) :=
  ownership_isolation [sampleTask] 2 1
    { title := none, description := none, status := some "completed" } 5 6
    (by decide)

/-! ### Claim C10: update rejection happens before any save -/

lemma applyStatus_error_preserves_db (db : DB) (task : Task)
    (status? : Option String) (now : Time) (e : Nat × String)
    (h : (applyStatus db task status? now).1 = .error e) :
    (applyStatus db task status? now).2 = db := by
  cases status? with
  | none => simp [applyStatus] at h
  | some st =>
      by_cases hv : validStatus st
      · simp [applyStatus, hv] at h
      · simp [applyStatus, hv]

lemma applyDescription_error_preserves_db (db : DB) (task : Task)
    (req : UpdateTaskRequest) (now : Time) (e : Nat × String)
    (h : (applyDescription db task req now).1 = .error e) :
    (applyDescription db task req now).2 = db := by
  cases hd : req.description with
  | none =>
      simp only [applyDescription, hd] at h ⊢
      exact applyStatus_error_preserves_db db task req.status now e h
  | some d =>
      simp only [applyDescription, hd] at h ⊢
      exact applyStatus_error_preserves_db db _ req.status now e h

/-- Claim C10: every rejected update — a 404 lookup failure, a present
title that is empty after trimming, or a present status outside the enum
— returns before the save, so the stored table is unchanged by the
failed request (even though a valid earlier field of the same patch was
already applied to the in-memory copy). -/
theorem update_rejection_preserves_db (db : DB) (uid : UserID)
    (tid : TaskID) (req : UpdateTaskRequest) (now : Time) (e : Nat × String)
    (h : (updateTask db uid tid req now).1 = .error e) :
    (updateTask db uid tid req now).2 = db := by
  cases hf : findTask db uid tid with
  | none => simp [updateTask, hf]
  | some task =>
      cases ht : req.title with
      | none =>
          simp only [updateTask, hf, ht] at h ⊢
          exact applyDescription_error_preserves_db db task req now e h
      | some newTitle =>
          by_cases hemp : trimSpace newTitle == ""
          · simp [updateTask, hf, ht, hemp]
          · simp only [updateTask, hf, ht, hemp, Bool.false_eq_true,
              if_false] at h ⊢
            exact applyDescription_error_preserves_db db _ req now e h

/-- Witness for C10: a patch whose title is valid but whose status is
not; the title was applied in memory, yet the stored row is untouched. -/
theorem update_rejection_preserves_db_witness :
    (updateTask [sampleTask] 1 1
        { title := some "New title", description := none,
          status := some "bogus" } 5).1 =
      .error (400, "Invalid status. Use: pending, in_progress, or completed") ∧
    (updateTask [sampleTask] 1 1
        { title := some "New title", description := none,
          status := some "bogus" } 5).2 = [sampleTask] :=
  ⟨by rfl,
   update_rejection_preserves_db [sampleTask] 1 1
     { title := some "New title", description := none,
       status := some "bogus" } 5
     (400, "Invalid status. Use: pending, in_progress, or completed")
     (by rfl)⟩

/-! ### Claim C8: partial-update frame -/

/-- The task produced by a successful partial update: each present patch
field overwrites, each absent field keeps its prior value, updated-at is
refreshed, and every other field (id, owner, created-at, deleted-at) is
untouched. -/
def updatedTask (task : Task) (req : UpdateTaskRequest) (now : Time) : Task :=
  { task with
      title := req.title.getD task.title
      description := req.description.getD task.description
      status := req.status.getD task.status
      updatedAt := now }

lemma applyDescription_ok (db : DB) (task : Task) (req : UpdateTaskRequest)
    (now : Time) (hs : ∀ st, req.status = some st → validStatus st = true) :
    applyDescription db task req now =
      (.ok { task with
              description := req.description.getD task.description
              status := req.status.getD task.status
              updatedAt := now },
       db.map fun u =>
         if u.id == task.id then
           { task with
              description := req.description.getD task.description
              status := req.status.getD task.status
              updatedAt := now }
         else u) := by
  cases hd : req.description with
  | none =>
      cases hst : req.status with
      | none => simp [applyDescription, applyStatus, saveTask, hd, hst]
      | some st =>
          simp [applyDescription, applyStatus, saveTask, hd, hst, hs st hst]
  | some d =>
      cases hst : req.status with
      | none => simp [applyDescription, applyStatus, saveTask, hd, hst]
      | some st =>
          simp [applyDescription, applyStatus, saveTask, hd, hst, hs st hst]

lemma applyDescription_invalid_status (db : DB) (task : Task)
    (req : UpdateTaskRequest) (now : Time) (st : String)
    (hst : req.status = some st) (hinv : validStatus st = false) :
    applyDescription db task req now =
      (.error (400, "Invalid status. Use: pending, in_progress, or completed"),
       db) := by
  cases hd : req.description with
  | none => simp [applyDescription, applyStatus, hd, hst, hinv]
  | some d => simp [applyDescription, applyStatus, hd, hst, hinv]

/-- Claim C8: for an update aimed at an existing owned task — a present
title that trims to empty is rejected 400 before any write; a present
status outside the enum is rejected 400 before any write; and when all
present fields are valid the stored row becomes `updatedTask`: present
fields overwritten (description replaced unconditionally), absent fields
untouched, updated-at refreshed. -/
theorem partial_update_frame (db : DB) (uid : UserID) (tid : TaskID)
    (req : UpdateTaskRequest) (now : Time) (task : Task)
    (hf : findTask db uid tid = some task) :
    (∀ s, req.title = some s → trimSpace s = "" →
        updateTask db uid tid req now =
          (.error (400, "Title cannot be empty"), db)) ∧
    (∀ st, req.status = some st → validStatus st = false →
        (∀ s, req.title = some s → trimSpace s ≠ "") →
        updateTask db uid tid req now =
          (.error (400, "Invalid status. Use: pending, in_progress, or completed"),
           db)) ∧
    ((∀ s, req.title = some s → trimSpace s ≠ "") →
     (∀ st, req.status = some st → validStatus st = true) →
        updateTask db uid tid req now =
          (.ok (updatedTask task req now),
           db.map fun u =>
             if u.id == task.id then updatedTask task req now else u)) := by
  refine ⟨?_, ?_, ?_⟩
  · intro s hs hemp
    simp [updateTask, hf, hs, hemp]
  · intro st hst hinv htitle
    cases ht : req.title with
    | none =>
        simp only [updateTask, hf, ht]
        exact applyDescription_invalid_status db task req now st hst hinv
    | some s =>
        have hne : (trimSpace s == "") = false := by
          simpa using htitle s ht
        simp only [updateTask, hf, ht, hne, Bool.false_eq_true, if_false]
        exact applyDescription_invalid_status db _ req now st hst hinv
  · intro htitle hstatus
    cases ht : req.title with
    | none =>
        simp only [updateTask, hf, ht]
        rw [applyDescription_ok db task req now hstatus]
        simp [updatedTask, ht]
    | some s =>
        have hne : (trimSpace s == "") = false := by
          simpa using htitle s ht
        simp only [updateTask, hf, ht, hne, Bool.false_eq_true, if_false]
        rw [applyDescription_ok db _ req now hstatus]
        simp [updatedTask, ht]

/-- Witness for C8: a patch carrying only a status leaves title and
description unchanged and refreshes updated-at. -/
theorem partial_update_frame_witness :
    updateTask [sampleTask] 1 1
        { title := none, description := none, status := some "completed" } 9 =
      (.ok (updatedTask sampleTask
          { title := none, description := none, status := some "completed" } 9),
       [sampleTask].map fun u =>
         if u.id == sampleTask.id then
           updatedTask sampleTask
             { title := none, description := none, status := some "completed" } 9
         else u) :=
  (partial_update_frame [sampleTask] 1 1
      { title := none, description := none, status := some "completed" } 9
      sampleTask (by rfl)).2.2
    (fun s hs => nomatch hs)
    (fun st hst => by cases hst; rfl)

/-! ### Claim C7: soft delete exclusion -/

lemma deleteTask_of_findTask_none (db : DB) (uid : UserID) (tid : TaskID)
    (now : Time) (h : findTask db uid tid = none) :
    deleteTask db uid tid now = (.error (404, "Task not found"), db) := by
  simp [deleteTask, h]

lemma delete_marks_all (db : DB) (task : Task) (now : Time) :
    ∀ v ∈ db.map (fun u =>
        if u.id == task.id then { task with deletedAt := some now } else u),
      v.id = task.id → v.deletedAt = some now := by
  intro v hv hid
  obtain ⟨u, hu, rfl⟩ := List.mem_map.1 hv
  by_cases h : u.id == task.id
  · simp [h]
  · simp only [h, if_false] at hid ⊢
    exact absurd hid (by simpa using h)

lemma mem_pageItems (db : DB) (uid : UserID) (p s : Int) (t : Task)
    (h : t ∈ pageItems db uid p s) : t ∈ ownedVisible db uid := by
  have h1 : t ∈ orderedTasks db uid :=
    (List.drop_sublist _ _).subset ((List.take_sublist _ _).subset h)
  exact (List.perm_insertionSort
    (fun a b : Task => b.createdAt ≤ a.createdAt) (ownedVisible db uid)).mem_iff.1 h1

/-- Claim C7: a successful owner delete keeps the row (same table
length, a row with that id now carrying deleted-at = now is present),
makes every subsequent get-by-id answer 404, removes the id from every
list page and from the visible count behind `total`, and makes a second
delete of the same id answer 404 as well. -/
theorem soft_delete_exclusion (db : DB) (uid : UserID) (tid : TaskID)
    (now now' : Time) (task : Task) (pageStr pageSizeStr : String)
    (hf : findTask db uid tid = some task) :
    (deleteTask db uid tid now).1 = .ok () ∧
    (deleteTask db uid tid now).2.length = db.length ∧
    (deleteTask db uid tid now).2.filter
        (fun u => u.id == tid && u.deletedAt == some now) ≠ [] ∧
    getTask (deleteTask db uid tid now).2 uid tid =
      .error (404, "Task not found") ∧
    (ownedVisible (deleteTask db uid tid now).2 uid).filter
        (fun t => t.id == tid) = [] ∧
    (getTasks (deleteTask db uid tid now).2 uid pageStr pageSizeStr).tasks.filter
        (fun tr => tr.id == tid) = [] ∧
    (getTasks (deleteTask db uid tid now).2 uid pageStr pageSizeStr).total =
      (ownedVisible (deleteTask db uid tid now).2 uid).length ∧
    (deleteTask (deleteTask db uid tid now).2 uid tid now').1 =
      .error (404, "Task not found") := by
  obtain ⟨hmem, hid, huid, hvis⟩ := findTask_some db uid tid task hf
  have hdb' : (deleteTask db uid tid now).2 =
      db.map (fun u =>
        if u.id == task.id then { task with deletedAt := some now } else u) := by
    simp [deleteTask, hf]
  have hmark := delete_marks_all db task now
  -- every row of the new table that carries the deleted id is invisible
  have hdead : ∀ v ∈ (deleteTask db uid tid now).2, v.id = tid →
      v.deletedAt = some now := by
    intro v hv hvid
    exact hmark v (hdb' ▸ hv) (hid ▸ hvid)
  have hfind' : findTask (deleteTask db uid tid now).2 uid tid = none := by
    rw [findTask_eq_none_iff]
    intro t ht hcontra
    have := hdead t ht hcontra.1
    rw [hcontra.2.2] at this
    exact Option.noConfusion this
  have hnotvis : ∀ t ∈ ownedVisible (deleteTask db uid tid now).2 uid,
      ¬(t.id = tid) := by
    intro t ht htid
    have hmf := List.mem_filter.1 ht
    have hdel := hdead t hmf.1 htid
    have hv : t.visible = true := by
      have := hmf.2
      simp [Task.visible] at this ⊢
      exact this.2
    rw [Task.visible, hdel] at hv
    simp at hv
  refine ⟨by simp [deleteTask, hf], by simp [hdb'], ?_, ?_, ?_, ?_, rfl, ?_⟩
  · -- the marked row persists in the table
    have htask' : ({ task with deletedAt := some now } : Task) ∈
        (deleteTask db uid tid now).2 := by
      rw [hdb']
      exact List.mem_map.2 ⟨task, hmem, by simp⟩
    intro hnil
    have : ({ task with deletedAt := some now } : Task) ∈
        (deleteTask db uid tid now).2.filter
          (fun u => u.id == tid && u.deletedAt == some now) :=
      List.mem_filter.2 ⟨htask', by simp [hid]⟩
    rw [hnil] at this
    exact List.not_mem_nil _ this
  · simp [getTask, hfind']
  · rw [List.filter_eq_nil_iff]
    intro t ht
    simpa using hnotvis t ht
  · rw [List.filter_eq_nil_iff]
    intro tr htr
    obtain ⟨t, htmem, rfl⟩ := List.mem_map.1 htr
    have : t ∈ ownedVisible (deleteTask db uid tid now).2 uid :=
      mem_pageItems _ _ _ _ _ htmem
    simpa [toTaskResponse] using hnotvis t this
  · rw [deleteTask_of_findTask_none _ _ _ now' hfind']

/-- Witness for C7 at a concrete one-task table. -/
theorem soft_delete_exclusion_witness :
    (deleteTask [sampleTask] 1 1 5).1 = .ok () ∧
    (deleteTask [sampleTask] 1 1 5).2.length = [sampleTask].length ∧
    (deleteTask [sampleTask] 1 1 5).2.filter
        (fun u => u.id == 1 && u.deletedAt == some 5) ≠ [] ∧
    getTask (deleteTask [sampleTask] 1 1 5).2 1 1 =
      .error (404, "Task not found") ∧
    (ownedVisible (deleteTask [sampleTask] 1 1 5).2 1).filter
        (fun t => t.id == 1) = [] ∧
    (getTasks (deleteTask [sampleTask] 1 1 5).2 1 "" "").tasks.filter
        (fun tr => tr.id == 1) = [] ∧
    (getTasks (deleteTask [sampleTask] 1 1 5).2 1 "" "").total =
      (ownedVisible (deleteTask [sampleTask] 1 1 5).2 1).length ∧
    (deleteTask (deleteTask [sampleTask] 1 1 5).2 1 1 6).1 =
      .error (404, "Task not found") :=
  soft_delete_exclusion [sampleTask] 1 1 5 6 sampleTask "" "" (by rfl)

/-! ### Claim C5: pagination parameter normalization and ordering -/

lemma orderedTasks_sorted (db : DB) (uid : UserID) :
    List.Pairwise (fun a b : Task => b.createdAt ≤ a.createdAt)
      (orderedTasks db uid) := by
  haveI : IsTotal Task (fun a b : Task => b.createdAt ≤ a.createdAt) :=
    ⟨fun a b => Nat.le_total b.createdAt a.createdAt⟩
  haveI : IsTrans Task (fun a b : Task => b.createdAt ≤ a.createdAt) :=
    ⟨fun _ _ _ hab hbc => le_trans hbc hab⟩
  exact List.sorted_insertionSort _ _

lemma pageItems_sorted (db : DB) (uid : UserID) (p s : Int) :
    List.Pairwise (fun a b : Task => b.createdAt ≤ a.createdAt)
      (pageItems db uid p s) :=
  List.Pairwise.sublist
    ((List.take_sublist _ _).trans (List.drop_sublist _ _))
    (orderedTasks_sorted db uid)

/-- Claim C5: effective page defaults to 1 on an absent, non-numeric or
non-positive parameter and is the given value otherwise; effective page
size defaults to 10 likewise and is otherwise silently clamped to at
most 100 (500 becomes 100, never an error); the returned items are the
slice of the fixed newest-first ordering starting at offset
(page − 1) × pageSize; they are ordered by creation time descending; and
two consecutive pages of the same size are adjacent slices of that one
fixed ordering. -/
theorem pagination_params_and_order (s : String) (p : Int) (db : DB)
    (uid : UserID) (page sz : Int) (pageStr pageSizeStr : String) :
    (effectivePage "" = 1) ∧
    (atoi s = none → effectivePage s = 1) ∧
    (atoi s = some p → p ≤ 0 → effectivePage s = 1) ∧
    (atoi s = some p → 0 < p → effectivePage s = p) ∧
    (effectivePageSize "" = 10) ∧
    (atoi s = none → effectivePageSize s = 10) ∧
    (atoi s = some p → p ≤ 0 → effectivePageSize s = 10) ∧
    (atoi s = some p → 0 < p → effectivePageSize s = min p 100) ∧
    (effectivePageSize "500" = 100) ∧
    ((getTasks db uid pageStr pageSizeStr).tasks =
      (pageItems db uid (effectivePage pageStr)
        (effectivePageSize pageSizeStr)).map toTaskResponse) ∧
    (pageItems db uid page sz =
      ((orderedTasks db uid).drop ((page - 1) * sz).toNat).take sz.toNat) ∧
    (List.Pairwise (fun a b : TaskResponse => b.createdAt ≤ a.createdAt)
      (getTasks db uid pageStr pageSizeStr).tasks) ∧
    (1 ≤ page → 0 ≤ sz →
      pageItems db uid page sz ++ pageItems db uid (page + 1) sz =
        ((orderedTasks db uid).drop ((page - 1) * sz).toNat).take
          (2 * sz).toNat) := by
  have hatoiEmpty : atoi "" = none := by rfl
  refine ⟨rfl, ?_, ?_, ?_, rfl, ?_, ?_, ?_, by rfl, rfl, rfl, ?_, ?_⟩
  · intro h
    by_cases hs : s = "" <;> simp [effectivePage, hs, h]
  · intro h hp
    by_cases hs : s = ""
    · rw [hs, hatoiEmpty] at h; exact Option.noConfusion h
    · simp only [effectivePage, beq_iff_eq, hs, if_false, h]
      rw [if_neg (by omega)]
  · intro h hp
    by_cases hs : s = ""
    · rw [hs, hatoiEmpty] at h; exact Option.noConfusion h
    · simp only [effectivePage, beq_iff_eq, hs, if_false, h]
      rw [if_pos hp]
  · intro h
    by_cases hs : s = "" <;> simp [effectivePageSize, hs, h]
  · intro h hp
    by_cases hs : s = ""
    · rw [hs, hatoiEmpty] at h; exact Option.noConfusion h
    · simp only [effectivePageSize, beq_iff_eq, hs, if_false, h]
      rw [if_neg (by omega)]
  · intro h hp
    by_cases hs : s = ""
    · rw [hs, hatoiEmpty] at h; exact Option.noConfusion h
    · simp only [effectivePageSize, beq_iff_eq, hs, if_false, h]
      rw [if_pos hp]
      split_ifs <;> omega
  · show List.Pairwise (fun a b : TaskResponse => b.createdAt ≤ a.createdAt)
      ((pageItems db uid (effectivePage pageStr)
        (effectivePageSize pageSizeStr)).map toTaskResponse)
    rw [List.pairwise_map]
    exact pageItems_sorted db uid _ _
  · intro hp hsz
    have hnn : (0 : Int) ≤ (page - 1) * sz :=
      mul_nonneg (by omega) hsz
    have h1 : ((page + 1 - 1) * sz).toNat =
        ((page - 1) * sz).toNat + sz.toNat := by
      have e : (page + 1 - 1) * sz = (page - 1) * sz + sz := by ring
      rw [e, Int.toNat_add hnn hsz]
    have h2 : (2 * sz).toNat = sz.toNat + sz.toNat := by omega
    simp only [pageItems, h1, h2]
    rw [List.take_add, ← List.drop_drop]

/-- A 15-row table owned by user 1, with distinct creation times. -/
def db15 : DB :=
  (List.range 15).map fun i =>
    { id := i + 1, title := "task", description := "",
      status := "pending", userID := 1,
      createdAt := i, updatedAt := i, deletedAt := none }

/-- Witness for C5 at concrete parameter strings and a concrete table. -/
theorem pagination_params_and_order_witness :
    effectivePage "" = 1 ∧
    effectivePage "abc" = 1 ∧
    effectivePage "-3" = 1 ∧
    effectivePage "7" = 7 ∧
    effectivePageSize "" = 10 ∧
    effectivePageSize "0" = 10 ∧
    effectivePageSize "37" = min 37 100 ∧
    effectivePageSize "500" = 100 ∧
    (getTasks db15 1 "2" "5").tasks =
      (pageItems db15 1 (effectivePage "2")
        (effectivePageSize "5")).map toTaskResponse ∧
    List.Pairwise (fun a b : TaskResponse => b.createdAt ≤ a.createdAt)
      (getTasks db15 1 "2" "5").tasks ∧
    pageItems db15 1 1 5 ++ pageItems db15 1 (1 + 1) 5 =
      ((orderedTasks db15 1).drop ((1 - 1) * 5 : Int).toNat).take
        (2 * 5 : Int).toNat :=
  ⟨(pagination_params_and_order "" 0 [] 0 1 1 "" "").1,
   (pagination_params_and_order "abc" 0 [] 0 1 1 "" "").2.1 (by rfl),
   (pagination_params_and_order "-3" (-3) [] 0 1 1 "" "").2.2.1 (by rfl)
     (by decide),
   (pagination_params_and_order "7" 7 [] 0 1 1 "" "").2.2.2.1 (by rfl)
     (by decide),
   (pagination_params_and_order "" 0 [] 0 1 1 "" "").2.2.2.2.1,
   (pagination_params_and_order "0" 0 [] 0 1 1 "" "").2.2.2.2.2.2.1 (by rfl)
     (by decide),
   (pagination_params_and_order "37" 37 [] 0 1 1 "" "").2.2.2.2.2.2.2.1
     (by rfl) (by decide),
   (pagination_params_and_order "500" 500 [] 0 1 1 "" "").2.2.2.2.2.2.2.2.1,
   (pagination_params_and_order "" 0 db15 1 1 1 "2" "5").2.2.2.2.2.2.2.2.2.1,
   (pagination_params_and_order "" 0 db15 1 1 1 "2"
       "5").2.2.2.2.2.2.2.2.2.2.2.1,
   (pagination_params_and_order "" 0 db15 1 1 5 "2"
       "5").2.2.2.2.2.2.2.2.2.2.2.2 (by decide) (by decide)⟩

/-! ### Claim C6: pagination metadata -/

lemma effectivePageSize_pos (s : String) : 0 < effectivePageSize s := by
  unfold effectivePageSize
  by_cases hs : (s == "") = true
  · simp [hs]
  · simp only [hs, if_false]
    cases atoi s with
    | none => dsimp only; omega
    | some p => dsimp only; split_ifs <;> omega

lemma ceilDiv_le_iff (t q m : Nat) (hq : 0 < q) :
    (t + q - 1) / q ≤ m ↔ t ≤ m * q := by
  rw [Nat.div_le_iff_le_mul_add_pred hq, mul_comm q m]
  generalize m * q = x
  omega

/-- Claim C6: `total` is the count of the caller's visible tasks,
independent of the page parameters; `total_pages` is exactly
⌈total / pageSize⌉ (both as the integer expression the code computes and
via the ceiling's defining property: total ≤ totalPages·pageSize, and
totalPages is minimal with that bound); `has_next` iff page < totalPages;
`has_prev` iff page > 1; and the number of returned items is
min(pageSize, total − offset). -/
theorem pagination_metadata (db : DB) (uid : UserID)
    (pageStr pageSizeStr altPageStr altPageSizeStr : String) (m : Nat) :
    ((getTasks db uid pageStr pageSizeStr).total =
      (ownedVisible db uid).length) ∧
    ((getTasks db uid altPageStr altPageSizeStr).total =
      (getTasks db uid pageStr pageSizeStr).total) ∧
    ((getTasks db uid pageStr pageSizeStr).totalPages =
      ((getTasks db uid pageStr pageSizeStr).total +
        (getTasks db uid pageStr pageSizeStr).pageSize.toNat - 1) /
        (getTasks db uid pageStr pageSizeStr).pageSize.toNat) ∧
    ((getTasks db uid pageStr pageSizeStr).total ≤
      (getTasks db uid pageStr pageSizeStr).totalPages *
        (getTasks db uid pageStr pageSizeStr).pageSize.toNat) ∧
    ((getTasks db uid pageStr pageSizeStr).total ≤
        m * (getTasks db uid pageStr pageSizeStr).pageSize.toNat →
      (getTasks db uid pageStr pageSizeStr).totalPages ≤ m) ∧
    ((getTasks db uid pageStr pageSizeStr).hasNext =
      decide ((getTasks db uid pageStr pageSizeStr).page <
        ((getTasks db uid pageStr pageSizeStr).totalPages : Int))) ∧
    ((getTasks db uid pageStr pageSizeStr).hasPrev =
      decide (1 < (getTasks db uid pageStr pageSizeStr).page)) ∧
    ((getTasks db uid pageStr pageSizeStr).tasks.length =
      min (getTasks db uid pageStr pageSizeStr).pageSize.toNat
        ((ownedVisible db uid).length -
          (((getTasks db uid pageStr pageSizeStr).page - 1) *
            (getTasks db uid pageStr pageSizeStr).pageSize).toNat)) := by
  have hq : 0 < (effectivePageSize pageSizeStr).toNat := by
    have := effectivePageSize_pos pageSizeStr
    omega
  refine ⟨rfl, rfl, rfl, ?_, ?_, rfl, rfl, ?_⟩
  · exact (ceilDiv_le_iff _ _ _ hq).1 (le_refl _)
  · intro h
    exact (ceilDiv_le_iff _ _ _ hq).2 h
  · show ((pageItems db uid (effectivePage pageStr)
        (effectivePageSize pageSizeStr)).map toTaskResponse).length = _
    rw [List.length_map]
    simp only [pageItems, List.length_take, List.length_drop]
    have hlen : (orderedTasks db uid).length = (ownedVisible db uid).length :=
      (List.perm_insertionSort
        (fun a b : Task => b.createdAt ≤ a.createdAt)
        (ownedVisible db uid)).length_eq
    rw [hlen]
    rfl

/-- Witness for C6: 15 owned tasks, page 2, page size 5 — five items,
total 15, three pages, next and previous both present; page size 1000
clamps to 100; and the minimality side of the ceiling at m = 3. -/
theorem pagination_metadata_witness :
    (getTasks db15 1 "2" "5").tasks.length = 5 ∧
    (getTasks db15 1 "2" "5").total = 15 ∧
    (getTasks db15 1 "2" "5").totalPages = 3 ∧
    (getTasks db15 1 "2" "5").hasNext = true ∧
    (getTasks db15 1 "2" "5").hasPrev = true ∧
    (getTasks db15 1 "1" "1000").pageSize = 100 ∧
    ((getTasks db15 1 "2" "5").total ≤
        3 * (getTasks db15 1 "2" "5").pageSize.toNat →
      (getTasks db15 1 "2" "5").totalPages ≤ 3) :=
  ⟨by decide, by decide, by decide, by decide, by decide, by decide,
   (pagination_metadata db15 1 "2" "5" "1" "7" 3).2.2.2.2.1⟩

/-! ### Claim C9: duplicate-email Conflict at insert time -/

/-- Counterexample to C9 as stated: with an empty users table the
read-then-write pre-check passes, and when the insert itself then fails
with the storage layer's uniqueness violation (the racing-registration
scenario the claim describes), Register answers 500 "Failed to create
user" — `db.Create`'s error is never inspected — not the 409 Conflict
the claim requires. -/
theorem register_conflict_counterexample :
    register [] "new@example.com" "pw12345" (fun p => some ("hash:" ++ p))
        .uniqueViolation "secret" 0 =
      .failure 500 "Failed to create user" ∧
    (register [] "new@example.com" "pw12345" (fun p => some ("hash:" ++ p))
        .uniqueViolation "secret" 0).status ≠ 409 :=
  ⟨by rfl, by
    have h1 : register [] "new@example.com" "pw12345"
        (fun p => some ("hash:" ++ p)) .uniqueViolation "secret" 0 =
        .failure 500 "Failed to create user" := by rfl
    rw [h1]
    decide⟩

/-- Claim C9 (amended): the 409 Conflict arises only from the
read-then-write pre-check (a user with that email already present at
check time); a uniqueness violation surfaced by the storage layer at
insert time — like any other insert error — is answered 500 "Failed to
create user", not 409. -/
theorem register_conflict_paths (users : UserDB) (email password : String)
    (hash : String → Option String) (insert : InsertOutcome)
    (secret : String) (now : Time)
    (he : trimSpace email ≠ "") (hp : trimSpace password ≠ "") :
    (users.any (fun u => u.email == email) = true →
      register users email password hash insert secret now =
        .failure 409 "User with this email already exists") ∧
    (users.any (fun u => u.email == email) = false →
      (∃ h, hash password = some h) →
      insert = .uniqueViolation →
      register users email password hash insert secret now =
        .failure 500 "Failed to create user") := by
  constructor
  · intro hdup
    simp [register, he, hp, hdup]
  · intro hnodup ⟨hstr, hh⟩ hins
    simp [register, he, hp, hnodup, hh, hins]

/-- Witness for the amended C9: both paths at concrete inputs. -/
theorem register_conflict_paths_witness :
    (register [{ id := 1, email := "a@b.c", password := "h" }] "a@b.c"
        "pw12345" (fun p => some ("hash:" ++ p)) (.ok 2) "secret" 0 =
      .failure 409 "User with this email already exists") ∧
    (register [{ id := 1, email := "a@b.c", password := "h" }] "x@y.z"
        "pw12345" (fun p => some ("hash:" ++ p)) .uniqueViolation
        "secret" 0 =
      .failure 500 "Failed to create user") :=
  ⟨(register_conflict_paths [{ id := 1, email := "a@b.c", password := "h" }]
      "a@b.c" "pw12345" (fun p => some ("hash:" ++ p)) (.ok 2) "secret" 0
      (by decide) (by decide)).1 (by rfl),
   (register_conflict_paths [{ id := 1, email := "a@b.c", password := "h" }]
      "x@y.z" "pw12345" (fun p => some ("hash:" ++ p)) .uniqueViolation
      "secret" 0 (by decide) (by decide)).2 (by rfl)
      ⟨"hash:pw12345", rfl⟩ rfl⟩

end TaskAPI
